import Mathlib

/-!
Verification of the job-lifecycle core of `youtube_webapp.py`.

The shallow embedding follows the source file:
* a `Job` mirrors the per-job dict stored in the global `downloads` registry
  (`status`, `progress`, `current`, `errors`, optional `zip_path`, `timestamp`;
  a key absent from the Python dict is modelled as `none`);
* the registry `downloads` is a partial map from identifier strings to records;
* the media-fetching engine (yt-dlp) is opaque: a run environment supplies,
  per URL, the sequence of progress-hook events fired during `ydl.download`
  and the exception (if any) it raises afterwards, plus the success of
  `mkdir`, the directory listing seen by `os.listdir` at zip time, and the
  success of the archive write;
* Python's `int((completed / total) * 90)` on nonnegative ints is modelled by
  exact natural floor division `completed * 90 / total`.
-/

/-- One record of the `downloads` registry (the dict created in
`start_download` and mutated by `download_videos`). -/
structure Job where
  status : String
  progress : Nat
  current : String
  errors : List String
  zip_path : Option String
  timestamp : Nat
deriving DecidableEq

/-- The global `downloads` dict: a partial map from download identifiers to
job records. -/
def Reg := String → Option Job

/-- Dict assignment `downloads[id] = j` (inserts or overwrites). -/
def Reg.set (r : Reg) (id : String) (j : Job) : Reg :=
  fun k => if k = id then some j else r k

/-- The registry holding no job at all. -/
def Reg.empty : Reg := fun _ => none

/-- A progress event delivered to the hook by the fetch engine: the dict `d`
with `d['status']` either `'downloading'` or `'finished'` (each carrying
`d.get('filename','')`), or any other status, which the hook ignores. -/
inductive PEvent where
  | downloading (filename : String)
  | finished (filename : String)
  | other
deriving DecidableEq

/-- Outcome of one `ydl.download([url])` call: the progress events fired
while it runs, then the exception message if it raises. -/
structure FetchOutcome where
  events : List PEvent
  error : Option String
deriving DecidableEq

/-- One entry of `os.listdir(download_dir)` together with the result of
`os.path.isfile` on its full path. -/
structure DirEntry where
  name : String
  isFile : Bool
deriving DecidableEq

/-- The opaque environment a run of `download_videos` interacts with. -/
structure RunEnv where
  mkdirOk : Bool
  fetch : String → FetchOutcome
  dirListing : List DirEntry
  zipOk : Bool

/-- `home / "Downloads" / f"YouTube_{download_id}"`. -/
def downloadDirPath (home download_id : String) : String :=
  home ++ "/Downloads/YouTube_" ++ download_id

/-- `download_dir.parent / f"youtube_{download_id}.zip"`. -/
def zipFilePath (home download_id : String) : String :=
  home ++ "/Downloads/youtube_" ++ download_id ++ ".zip"

/-- Body of `progress_hook`, acting on the closed-over `completed` counter
and the job record `downloads[download_id]`:

* `'downloading'`: `progress = int((completed / total) * 90)` and
  `current = f"Downloading: {d.get('filename','')[:50]}"`;
* `'finished'`: `completed += 1` and
  `current = f"Finished: {d.get('filename','')[:50]}"`;
* anything else: no change. -/
def hookJob (total : Nat) (d : PEvent) (st : Nat × Job) : Nat × Job :=
  match d with
  | .downloading fn =>
      (st.1, { st.2 with
                progress := st.1 * 90 / total,
                current := "Downloading: " ++ fn.take 50 })
  | .finished fn =>
      (st.1 + 1, { st.2 with
                    current := "Finished: " ++ fn.take 50 })
  | .other => st

/-- Number of `'finished'` events in a list. -/
def countFinished : List PEvent → Nat
  | [] => 0
  | .finished _ :: rest => countFinished rest + 1
  | _ :: rest => countFinished rest

/-- Folding the hook over a list of events (the events fired during one or
more `ydl.download` calls). -/
def foldHook (total : Nat) (evs : List PEvent) (st : Nat × Job) : Nat × Job :=
  evs.foldl (fun p e => hookJob total e p) st

/-- State threaded through the `for url in urls` loop of `download_videos`:
the `completed` counter, the local `errors` list, and the job record. -/
structure RunState where
  completed : Nat
  errors : List String
  job : Job
deriving DecidableEq

/-- One iteration of the `for url in urls` loop: `ydl.download([url])` fires
its progress events through the hook; if it raises, `errors.append(str(e))`. -/
def fetchStep (total : Nat) (env : RunEnv) (st : RunState) (url : String) :
    RunState :=
  let out := env.fetch url
  let p := foldHook total out.events (st.completed, st.job)
  { completed := p.1,
    errors := st.errors ++ (match out.error with
      | some m => [m]
      | none => []),
    job := p.2 }

/-- The final registry update of `download_videos` (one `with downloads_lock`
block): `status='completed'`, `progress=100`, `zip_path`, summary `current`,
and `errors`. -/
def finalJob (home download_id : String) (completed total : Nat)
    (errors : List String) (j : Job) : Job :=
  { j with
    status := "completed",
    progress := 100,
    zip_path := some (zipFilePath home download_id),
    current := "Completed! " ++ toString completed ++ "/" ++ toString total
        ++ " downloaded",
    errors := errors }

/-- The zip-building loop: `for f in os.listdir(download_dir)`, writing each
regular file `full = os.path.join(download_dir, f)` under arcname `f`.
An archive is the list of its `(arcname, source path)` entries in order. -/
def writeZipEntries (download_dir : String) (entries : List DirEntry) :
    List (String × String) :=
  entries.foldl
    (fun acc e =>
      if e.isFile then acc ++ [(e.name, download_dir ++ "/" ++ e.name)]
      else acc) []

/-- Result of a `download_videos` run: the job record as the thread leaves it
in the registry, and the archive if one was written. -/
structure RunResult where
  job : Job
  archive : Option (List (String × String))

/-- `download_videos(urls, download_id, _, quality)` acting on the registry
record `j0 = downloads[download_id]`.  If `mkdir` raises, the thread dies
before touching anything; otherwise each URL is fetched in order (per-URL
exceptions collected in `errors`), then the zip is written (if that raises,
the thread dies with the record in its mid-run state), then the single final
registry update runs. -/
def download_videos (env : RunEnv) (urls : List String)
    (download_id home : String) (j0 : Job) : RunResult :=
  if env.mkdirOk = false then ⟨j0, none⟩
  else
    let total := urls.length
    let st := urls.foldl (fetchStep total env) ⟨0, [], j0⟩
    if env.zipOk = false then ⟨st.job, none⟩
    else
      let archive := writeZipEntries (downloadDirPath home download_id)
        env.dirListing
      ⟨finalJob home download_id st.completed total st.errors st.job,
        some archive⟩

/-- The job states reached by folding the hook over a list of events,
one state per hook invocation (each under `downloads_lock`). -/
def eventStates (total : Nat) : List PEvent → Nat × Job → List (Nat × Job)
  | [], _ => []
  | e :: rest, st =>
      let st' := hookJob total e st
      st' :: eventStates total rest st'

/-- All progress events of a run, in order: the per-URL event lists
concatenated (the `errors.append` between URLs touches no shared state). -/
def allEvents (env : RunEnv) (urls : List String) : List PEvent :=
  (urls.map (fun u => (env.fetch u).events)).flatten

/-- The exception messages collected by the `for url in urls` loop, in URL
order (one entry per URL whose `ydl.download` raised). -/
def fetchErrors (env : RunEnv) (urls : List String) : List String :=
  (urls.map (fun u => match (env.fetch u).error with
    | some m => [m]
    | none => [])).flatten

/-- The observable states of the job record `downloads[download_id]`, one per
lock-protected update: the record as created, then after each hook call, then
(when the run gets that far) after the final completion update. -/
def jobTrace (env : RunEnv) (urls : List String)
    (download_id home : String) (j0 : Job) : List Job :=
  if env.mkdirOk = false then [j0]
  else
    let total := urls.length
    let mids := (eventStates total (allEvents env urls) (0, j0)).map Prod.snd
    if env.zipOk = false then j0 :: mids
    else
      let st := urls.foldl (fetchStep total env) ⟨0, [], j0⟩
      j0 :: mids ++
        [finalJob home download_id st.completed total st.errors st.job]

/-- `is_valid_youtube_url`: substring membership of `"youtube.com"` or
`"youtu.be"` in the URL. -/
def is_valid_youtube_url (url : String) : Bool :=
  decide ("youtube.com".toList <:+: url.toList)
    || decide ("youtu.be".toList <:+: url.toList)

/-- The record `start_download` stores under the fresh identifier. -/
def initialJob (now : Nat) : Job :=
  { status := "starting", progress := 0, current := "Initializing",
    errors := [], zip_path := none, timestamp := now }

/-- What `start_download` returns to the HTTP caller, together with the
registry it leaves behind. -/
structure CreateResult where
  success : Bool
  error : Option String
  download_id : Option String
  reg : Reg

/-- `start_download`: filter the submitted URLs through
`is_valid_youtube_url`; with no survivor answer
`{'success': False, 'error': 'No valid URLs'}` and touch nothing; otherwise
store a fresh record under the generated identifier (`newId` stands for
`str(uuid.uuid4())[:8]`, `now` for `time.time()`) and return the identifier. -/
def start_download (newId : String) (now : Nat) (urls : List String)
    (reg : Reg) : CreateResult :=
  let valid_urls := urls.filter is_valid_youtube_url
  if valid_urls.isEmpty then
    ⟨false, some "No valid URLs", none, reg⟩
  else
    ⟨true, none, some newId, reg.set newId (initialJob now)⟩

/-- Response of the `/download_zip/<download_id>` route. -/
inductive ZipResponse where
  | notFound
  | statusSignal (status : String)
  | zipMissing
  | fileStream (path : String) (download_name : String)
deriving DecidableEq

/-- `download_zip`: 404 for an unknown identifier; `f"Status: {status}", 400`
while the job is not `completed`; 404 if the recorded zip path is missing or
the file does not exist; otherwise `send_file` on the archive. -/
def download_zip (reg : Reg) (fileExists : String → Bool)
    (download_id : String) : ZipResponse :=
  match reg download_id with
  | none => .notFound
  | some info =>
      if info.status ≠ "completed" then .statusSignal info.status
      else
        match info.zip_path with
        | none => .zipMissing
        | some p =>
            if fileExists p = false then .zipMissing
            else .fileStream p ("youtube_" ++ download_id ++ ".zip")

/-! ### Helper lemmas about the hook and the run loop -/

/-- A single hook invocation never touches `status`, `zip_path` or `errors`. -/
theorem hookJob_preserves (total : Nat) (e : PEvent) (st : Nat × Job) :
    (hookJob total e st).2.status = st.2.status ∧
    (hookJob total e st).2.zip_path = st.2.zip_path ∧
    (hookJob total e st).2.errors = st.2.errors := by
  cases e <;> simp [hookJob]

/-- Folding the hook never touches `status`, `zip_path` or `errors`. -/
theorem foldHook_preserves (total : Nat) (evs : List PEvent) (st : Nat × Job) :
    (foldHook total evs st).2.status = st.2.status ∧
    (foldHook total evs st).2.zip_path = st.2.zip_path ∧
    (foldHook total evs st).2.errors = st.2.errors := by
  induction evs generalizing st with
  | nil => simp [foldHook]
  | cons e rest ih =>
      have h := hookJob_preserves total e st
      have h' := ih (hookJob total e st)
      simp only [foldHook, List.foldl_cons] at h' ⊢
      exact ⟨h'.1.trans h.1, h'.2.1.trans h.2.1, h'.2.2.trans h.2.2⟩

/-- Folding the hook adds exactly the number of `'finished'` events to the
`completed` counter. -/
theorem foldHook_completed (total : Nat) (evs : List PEvent) (st : Nat × Job) :
    (foldHook total evs st).1 = st.1 + countFinished evs := by
  induction evs generalizing st with
  | nil => simp [foldHook, countFinished]
  | cons e rest ih =>
      simp only [foldHook, List.foldl_cons] at ih ⊢
      cases e with
      | downloading fn => rw [ih]; simp [hookJob, countFinished]
      | finished fn => rw [ih]; simp [hookJob, countFinished]; omega
      | other => rw [ih]; simp [hookJob, countFinished]

/-- Folding the hook over concatenated event lists composes. -/
theorem foldHook_append (total : Nat) (e1 e2 : List PEvent) (st : Nat × Job) :
    foldHook total (e1 ++ e2) st = foldHook total e2 (foldHook total e1 st) := by
  simp [foldHook, List.foldl_append]

/-- The `for url in urls` loop: the counter and job record evolve exactly as
the hook fold over the concatenated events, and the `errors` list collects
the per-URL exception messages in order. -/
theorem run_loop_eq (env : RunEnv) (total : Nat) (urls : List String)
    (st : RunState) :
    (urls.foldl (fetchStep total env) st).completed
        = (foldHook total (allEvents env urls) (st.completed, st.job)).1 ∧
    (urls.foldl (fetchStep total env) st).job
        = (foldHook total (allEvents env urls) (st.completed, st.job)).2 ∧
    (urls.foldl (fetchStep total env) st).errors
        = st.errors ++ fetchErrors env urls := by
  induction urls generalizing st with
  | nil => simp [allEvents, fetchErrors, foldHook]
  | cons u rest ih =>
      have ihs := ih (fetchStep total env st u)
      simp only [List.foldl_cons]
      have hall : allEvents env (u :: rest)
          = (env.fetch u).events ++ allEvents env rest := by
        simp [allEvents]
      rw [hall, foldHook_append]
      have hc : (fetchStep total env st u).completed
          = (foldHook total (env.fetch u).events (st.completed, st.job)).1 := rfl
      have hj : (fetchStep total env st u).job
          = (foldHook total (env.fetch u).events (st.completed, st.job)).2 := rfl
      have he : (fetchStep total env st u).errors
          = st.errors ++ (match (env.fetch u).error with
              | some m => [m]
              | none => []) := rfl
      refine ⟨?_, ?_, ?_⟩
      · rw [ihs.1, hc, hj]
      · rw [ihs.2.1, hc, hj]
      · rw [ihs.2.2, he]
        simp [fetchErrors, List.append_assoc]

/-- Bounding the progress formula: while `completed ≤ total`,
`completed * 90 / total` never exceeds 90. -/
theorem div90_le (c t : Nat) (h : c ≤ t) : c * 90 / t ≤ 90 := by
  cases t with
  | zero =>
      have hc : c = 0 := Nat.le_zero.mp h
      simp [hc]
  | succ t =>
      calc c * 90 / (t + 1) ≤ (t + 1) * 90 / (t + 1) :=
            Nat.div_le_div_right (by omega)
        _ = 90 := Nat.mul_div_cancel_left 90 (Nat.succ_pos t)

/-- A hook invocation never lowers `progress`, and it maintains the
invariant `progress ≤ completed * 90 / total`. -/
theorem hookJob_mono (total : Nat) (e : PEvent) (st : Nat × Job)
    (h : st.2.progress ≤ st.1 * 90 / total) :
    st.2.progress ≤ (hookJob total e st).2.progress ∧
    (hookJob total e st).2.progress ≤ (hookJob total e st).1 * 90 / total := by
  cases e with
  | downloading fn =>
      refine ⟨?_, ?_⟩
      · simpa [hookJob] using h
      · simp [hookJob]
  | finished fn =>
      have h90 : st.1 * 90 / total ≤ (st.1 + 1) * 90 / total :=
        Nat.div_le_div_right (by omega)
      refine ⟨?_, ?_⟩
      · simp [hookJob]
      · simpa [hookJob] using h.trans h90
  | other => exact ⟨Nat.le_refl _, h⟩

/-- Along the hook states of a run, `progress` is non-decreasing from one
lock-protected update to the next. -/
theorem eventStates_chain (total : Nat) (evs : List PEvent) (st : Nat × Job)
    (h : st.2.progress ≤ st.1 * 90 / total) :
    List.Chain' (fun a b : Job => a.progress ≤ b.progress)
      (st.2 :: (eventStates total evs st).map Prod.snd) := by
  induction evs generalizing st with
  | nil => exact List.chain'_singleton _
  | cons e rest ih =>
      have hm := hookJob_mono total e st h
      simpa [eventStates, List.chain'_cons] using ⟨hm.1, ih _ hm.2⟩

/-- Every hook state keeps `progress ≤ 90` as long as the counter plus the
remaining `'finished'` events stays within the URL count. -/
theorem eventStates_le90 (total : Nat) (evs : List PEvent) (st : Nat × Job)
    (hj : st.2.progress ≤ 90) (hc : st.1 + countFinished evs ≤ total) :
    ∀ p ∈ eventStates total evs st, p.2.progress ≤ 90 := by
  induction evs generalizing st with
  | nil => intro p hp; simp [eventStates] at hp
  | cons e rest ih =>
      intro p hp
      simp only [eventStates, List.mem_cons] at hp
      cases e with
      | downloading fn =>
          have hle : (hookJob total (.downloading fn) st).2.progress ≤ 90 := by
            have hst : st.1 ≤ total := by
              have : countFinished (PEvent.downloading fn :: rest)
                  = countFinished rest := rfl
              omega
            simpa [hookJob] using div90_le st.1 total hst
          rcases hp with hp | hp
          · rw [hp]; exact hle
          · exact ih _ hle (by
              have : countFinished (PEvent.downloading fn :: rest)
                  = countFinished rest := rfl
              simpa [hookJob] using hc) p hp
      | finished fn =>
          have hle : (hookJob total (.finished fn) st).2.progress ≤ 90 := by
            simpa [hookJob] using hj
          rcases hp with hp | hp
          · rw [hp]; exact hle
          · exact ih _ hle (by
              have hcf : countFinished (PEvent.finished fn :: rest)
                  = countFinished rest + 1 := rfl
              simp only [hookJob]
              omega) p hp
      | other =>
          have hle : (hookJob total .other st).2.progress ≤ 90 := hj
          rcases hp with hp | hp
          · rw [hp]; exact hle
          · exact ih _ hle (by
              have : countFinished (PEvent.other :: rest)
                  = countFinished rest := rfl
              simpa [hookJob] using hc) p hp

/-- Every hook state keeps the `status`, `zip_path` and `errors` fields of
the state it started from. -/
theorem eventStates_preserves (total : Nat) (evs : List PEvent)
    (st : Nat × Job) :
    ∀ p ∈ eventStates total evs st,
      p.2.status = st.2.status ∧ p.2.zip_path = st.2.zip_path ∧
      p.2.errors = st.2.errors := by
  induction evs generalizing st with
  | nil => intro p hp; simp [eventStates] at hp
  | cons e rest ih =>
      intro p hp
      have hpre := hookJob_preserves total e st
      simp only [eventStates, List.mem_cons] at hp
      rcases hp with hp | hp
      · rw [hp]; exact hpre
      · have h' := ih (hookJob total e st) p hp
        exact ⟨h'.1.trans hpre.1, h'.2.1.trans hpre.2.1, h'.2.2.trans hpre.2.2⟩

/-- The zip loop writes exactly the regular files of the listing, in order,
each under its bare name as arcname, sourced from the joined path. -/
theorem writeZipEntries_eq (download_dir : String) (entries : List DirEntry) :
    writeZipEntries download_dir entries
      = (entries.filter (fun e => e.isFile)).map
          (fun e => (e.name, download_dir ++ "/" ++ e.name)) := by
  have key : ∀ (l : List DirEntry) (acc : List (String × String)),
      l.foldl (fun acc e =>
          if e.isFile then acc ++ [(e.name, download_dir ++ "/" ++ e.name)]
          else acc) acc
        = acc ++ (l.filter (fun e => e.isFile)).map
            (fun e => (e.name, download_dir ++ "/" ++ e.name)) := by
    intro l
    induction l with
    | nil => intro acc; simp
    | cons e rest ih =>
        intro acc
        by_cases hf : e.isFile
        · simp [List.foldl_cons, hf, ih, List.filter_cons]
        · simp [List.foldl_cons, hf, ih, List.filter_cons]
  simpa using key entries []

/-- The count of `'finished'` events adds up over concatenation. -/
theorem countFinished_append (a b : List PEvent) :
    countFinished (a ++ b) = countFinished a + countFinished b := by
  induction a with
  | nil => simp [countFinished]
  | cons e rest ih =>
      cases e with
      | downloading fn => simp [countFinished, ih]
      | finished fn => simp [countFinished, ih]; omega
      | other => simp [countFinished, ih]

/-- Shape of a run in which `mkdir` and the zip write both succeed. -/
theorem download_videos_ok (env : RunEnv) (urls : List String)
    (download_id home : String) (j0 : Job)
    (hmk : env.mkdirOk = true) (hz : env.zipOk = true) :
    download_videos env urls download_id home j0
      = ⟨finalJob home download_id
            (urls.foldl (fetchStep urls.length env) ⟨0, [], j0⟩).completed
            urls.length
            (urls.foldl (fetchStep urls.length env) ⟨0, [], j0⟩).errors
            (urls.foldl (fetchStep urls.length env) ⟨0, [], j0⟩).job,
          some (writeZipEntries (downloadDirPath home download_id)
            env.dirListing)⟩ := by
  simp [download_videos, hmk, hz]

/-- Shape of a run in which `mkdir` succeeds but the zip write raises. -/
theorem download_videos_zipFail (env : RunEnv) (urls : List String)
    (download_id home : String) (j0 : Job)
    (hmk : env.mkdirOk = true) (hz : env.zipOk = false) :
    download_videos env urls download_id home j0
      = ⟨(urls.foldl (fetchStep urls.length env) ⟨0, [], j0⟩).job, none⟩ := by
  simp [download_videos, hmk, hz]

/-- Every observable state of a job is the created record, a hook state, or
the final completion state. -/
theorem jobTrace_mem (env : RunEnv) (urls : List String)
    (download_id home : String) (j0 : Job) :
    ∀ j ∈ jobTrace env urls download_id home j0,
      j = j0 ∨
      (∃ p ∈ eventStates urls.length (allEvents env urls) (0, j0), j = p.2) ∨
      (env.mkdirOk = true ∧ env.zipOk = true ∧
        j = finalJob home download_id
              (urls.foldl (fetchStep urls.length env) ⟨0, [], j0⟩).completed
              urls.length
              (urls.foldl (fetchStep urls.length env) ⟨0, [], j0⟩).errors
              (urls.foldl (fetchStep urls.length env) ⟨0, [], j0⟩).job) := by
  intro j hj
  by_cases hmk : env.mkdirOk = false
  · simp [jobTrace, hmk] at hj
    exact Or.inl hj
  · have hmk' : env.mkdirOk = true := by
      cases hb : env.mkdirOk
      · exact absurd hb hmk
      · rfl
    by_cases hz : env.zipOk = false
    · have htr : jobTrace env urls download_id home j0
          = j0 :: (eventStates urls.length (allEvents env urls)
              (0, j0)).map Prod.snd := by
        simp [jobTrace, hmk', hz]
      rw [htr] at hj
      rcases List.mem_cons.mp hj with hj | hj
      · exact Or.inl hj
      · rcases List.mem_map.mp hj with ⟨p, hp, hpj⟩
        exact Or.inr (Or.inl ⟨p, hp, hpj.symm⟩)
    · have hz' : env.zipOk = true := by
        cases hb : env.zipOk
        · exact absurd hb hz
        · rfl
      have htr : jobTrace env urls download_id home j0
          = j0 :: ((eventStates urls.length (allEvents env urls)
                (0, j0)).map Prod.snd ++
              [finalJob home download_id
                (urls.foldl (fetchStep urls.length env) ⟨0, [], j0⟩).completed
                urls.length
                (urls.foldl (fetchStep urls.length env) ⟨0, [], j0⟩).errors
                (urls.foldl (fetchStep urls.length env) ⟨0, [], j0⟩).job]) := by
        simp [jobTrace, hmk', hz']
      rw [htr] at hj
      rcases List.mem_cons.mp hj with hj | hj
      · exact Or.inl hj
      · rcases List.mem_append.mp hj with hj | hj
        · rcases List.mem_map.mp hj with ⟨p, hp, hpj⟩
          exact Or.inr (Or.inl ⟨p, hp, hpj.symm⟩)
        · exact Or.inr (Or.inr ⟨hmk', hz', List.mem_singleton.mp hj⟩)

/-- Field values of the final completion update. -/
theorem finalJob_status (home download_id : String) (completed total : Nat)
    (errors : List String) (j : Job) :
    (finalJob home download_id completed total errors j).status
      = "completed" := rfl

/-- The final update sets `progress` to 100. -/
theorem finalJob_progress (home download_id : String) (completed total : Nat)
    (errors : List String) (j : Job) :
    (finalJob home download_id completed total errors j).progress = 100 := rfl

/-- The final update stores the collected error list. -/
theorem finalJob_errors (home download_id : String) (completed total : Nat)
    (errors : List String) (j : Job) :
    (finalJob home download_id completed total errors j).errors = errors := rfl

/-- The final update stores the deterministic zip path. -/
theorem finalJob_zip (home download_id : String) (completed total : Nat)
    (errors : List String) (j : Job) :
    (finalJob home download_id completed total errors j).zip_path
      = some (zipFilePath home download_id) := rfl

/-- The final update writes the summary message. -/
theorem finalJob_current (home download_id : String) (completed total : Nat)
    (errors : List String) (j : Job) :
    (finalJob home download_id completed total errors j).current
      = "Completed! " ++ toString completed ++ "/" ++ toString total
          ++ " downloaded" := rfl

/-! ### Claim theorems -/

/-- C6: at archive-build time the produced archive contains exactly the
regular files directly inside the job's output directory, each stored
flattened under its bare filename, with subdirectories and their contents
excluded, and both the archive entries' source paths and the recorded
archive path are determined by the job identifier (under the fixed home
directory). -/
theorem C6_archive_exact_flat_contents (env : RunEnv) (urls : List String)
    (download_id home : String) (j0 : Job)
    (hmk : env.mkdirOk = true) (hz : env.zipOk = true) :
    (download_videos env urls download_id home j0).archive
      = some ((env.dirListing.filter (fun e => e.isFile)).map
          (fun e => (e.name,
            downloadDirPath home download_id ++ "/" ++ e.name))) ∧
    (download_videos env urls download_id home j0).job.zip_path
      = some (zipFilePath home download_id) := by
  rw [download_videos_ok env urls download_id home j0 hmk hz]
  constructor
  · simp [writeZipEntries_eq]
  · simp [finalJob]

/-- Concrete environment exercising the archive builder: two regular files
and one subdirectory in the output directory. -/
def envC6 : RunEnv :=
  { mkdirOk := true,
    fetch := fun _ => ⟨[], none⟩,
    dirListing := [⟨"01 - a.mp4", true⟩, ⟨"subdir", false⟩,
      ⟨"01 - a.en.srt", true⟩],
    zipOk := true }

/-- Witness for C6 at a concrete run. -/
theorem C6_witness :
    envC6.mkdirOk = true ∧ envC6.zipOk = true ∧
    ((download_videos envC6 ["https://youtu.be/a"] "w6" "/home/u"
          (initialJob 0)).archive
        = some ((envC6.dirListing.filter (fun e => e.isFile)).map
            (fun e => (e.name, downloadDirPath "/home/u" "w6" ++ "/" ++ e.name))) ∧
      (download_videos envC6 ["https://youtu.be/a"] "w6" "/home/u"
          (initialJob 0)).job.zip_path
        = some (zipFilePath "/home/u" "w6")) :=
  ⟨rfl, rfl,
    C6_archive_exact_flat_contents envC6 ["https://youtu.be/a"] "w6" "/home/u"
      (initialJob 0) rfl rfl⟩

/-- C7: while a job's status is not `completed`, the archive endpoint
answers with a signal carrying the job's current status and never a file
stream; a file stream is served only for a `completed` job. -/
theorem C7_zip_endpoint_requires_completed (reg : Reg)
    (canRead : String → Bool) (download_id : String) (j : Job)
    (hj : reg download_id = some j) :
    (j.status ≠ "completed" →
      download_zip reg canRead download_id = ZipResponse.statusSignal j.status) ∧
    (∀ p n, download_zip reg canRead download_id = ZipResponse.fileStream p n →
      j.status = "completed") := by
  constructor
  · intro hs
    simp [download_zip, hj, hs]
  · intro p n h
    by_cases hs : j.status = "completed"
    · exact hs
    · simp [download_zip, hj, hs] at h

/-- Witness registry for C7: one job still in its created state. -/
def regC7 : Reg := Reg.empty.set "w7" (initialJob 5)

/-- Witness for C7 at a concrete registry. -/
theorem C7_witness :
    regC7 "w7" = some (initialJob 5) ∧
    (((initialJob 5).status ≠ "completed" →
        download_zip regC7 (fun _ => true) "w7"
          = ZipResponse.statusSignal (initialJob 5).status) ∧
      (∀ p n, download_zip regC7 (fun _ => true) "w7"
          = ZipResponse.fileStream p n →
        (initialJob 5).status = "completed")) :=
  ⟨rfl, C7_zip_endpoint_requires_completed regC7 (fun _ => true) "w7"
    (initialJob 5) rfl⟩

/-- C8: a creation request in which no URL passes the domain-membership
check (in particular an empty URL list) is rejected with a validation
error, no identifier is issued, and the registry is left unchanged. -/
theorem C8_invalid_creation_rejected (newId : String) (now : Nat)
    (urls : List String) (reg : Reg)
    (h : ∀ u ∈ urls, is_valid_youtube_url u = false) :
    (start_download newId now urls reg).success = false ∧
    (start_download newId now urls reg).error = some "No valid URLs" ∧
    (start_download newId now urls reg).download_id = none ∧
    (start_download newId now urls reg).reg = reg := by
  have hf : urls.filter is_valid_youtube_url = [] := by
    rw [List.filter_eq_nil_iff]
    intro a ha
    simp [h a ha]
  simp [start_download, hf]

/-- Witness for C8 at a concrete request with no valid URL. -/
theorem C8_witness :
    (∀ u ∈ ["https://vimeo.com/123", ""], is_valid_youtube_url u = false) ∧
    ((start_download "w8" 3 ["https://vimeo.com/123", ""] Reg.empty).success
        = false ∧
      (start_download "w8" 3 ["https://vimeo.com/123", ""] Reg.empty).error
        = some "No valid URLs" ∧
      (start_download "w8" 3 ["https://vimeo.com/123", ""] Reg.empty).download_id
        = none ∧
      (start_download "w8" 3 ["https://vimeo.com/123", ""] Reg.empty).reg
        = Reg.empty) :=
  ⟨by decide,
    C8_invalid_creation_rejected "w8" 3 ["https://vimeo.com/123", ""] Reg.empty
      (by decide)⟩

/-- Environment in which creating the output directory raises (`mkdir`
fails) and everything else would succeed. -/
def envMkdirFail : RunEnv :=
  { mkdirOk := false,
    fetch := fun _ => ⟨[], none⟩,
    dirListing := [],
    zipOk := true }

/-- C2 counterexample: when the output directory cannot be created, the
runner thread dies with the unhandled exception; the job record keeps its
created state — its status is never set to `failed` and no error is
appended (the code has no failure branch). -/
theorem C2_counterexample :
    (download_videos envMkdirFail ["https://www.youtube.com/watch?v=a"]
        "c2" "/home/u" (initialJob 0)).job.status ≠ "failed" ∧
    (download_videos envMkdirFail ["https://www.youtube.com/watch?v=a"]
        "c2" "/home/u" (initialJob 0)).job.status = "starting" ∧
    (download_videos envMkdirFail ["https://www.youtube.com/watch?v=a"]
        "c2" "/home/u" (initialJob 0)).job.errors = [] ∧
    (download_videos envMkdirFail ["https://www.youtube.com/watch?v=a"]
        "c2" "/home/u" (initialJob 0)).archive = none := by
  refine ⟨?_, rfl, rfl, rfl⟩
  decide

/-- C2 amended: an internal error (directory creation or archive write
failing) aborts the run with no archive recorded and leaves the job's
`status`, `zip_path` and `errors` exactly as they were — in particular the
status is never set to `failed` and no descriptive error is appended. -/
theorem C2_amended_internal_error (env : RunEnv) (urls : List String)
    (download_id home : String) (j0 : Job)
    (h : env.mkdirOk = false ∨ env.zipOk = false) :
    (download_videos env urls download_id home j0).archive = none ∧
    (download_videos env urls download_id home j0).job.status = j0.status ∧
    (download_videos env urls download_id home j0).job.zip_path
      = j0.zip_path ∧
    (download_videos env urls download_id home j0).job.errors
      = j0.errors := by
  by_cases hmk : env.mkdirOk = false
  · simp [download_videos, hmk]
  · have hmk' : env.mkdirOk = true := by
      cases hb : env.mkdirOk
      · exact absurd hb hmk
      · rfl
    have hz : env.zipOk = false := by
      rcases h with h | h
      · exact absurd h hmk
      · exact h
    rw [download_videos_zipFail env urls download_id home j0 hmk' hz]
    have hjob := (run_loop_eq env urls.length urls ⟨0, [], j0⟩).2.1
    have hpres := foldHook_preserves urls.length (allEvents env urls) (0, j0)
    have hjob' : (urls.foldl (fetchStep urls.length env) ⟨0, [], j0⟩).job
        = (foldHook urls.length (allEvents env urls) (0, j0)).2 := hjob
    exact ⟨rfl, by rw [hjob']; exact hpres.1,
      by rw [hjob']; exact hpres.2.1, by rw [hjob']; exact hpres.2.2⟩

/-- Witness for the amended C2 at a concrete failing run. -/
theorem C2_amended_witness :
    (envMkdirFail.mkdirOk = false ∨ envMkdirFail.zipOk = false) ∧
    ((download_videos envMkdirFail ["https://youtu.be/b"] "c2w" "/home/u"
          (initialJob 7)).archive = none ∧
      (download_videos envMkdirFail ["https://youtu.be/b"] "c2w" "/home/u"
          (initialJob 7)).job.status = (initialJob 7).status ∧
      (download_videos envMkdirFail ["https://youtu.be/b"] "c2w" "/home/u"
          (initialJob 7)).job.zip_path = (initialJob 7).zip_path ∧
      (download_videos envMkdirFail ["https://youtu.be/b"] "c2w" "/home/u"
          (initialJob 7)).job.errors = (initialJob 7).errors) :=
  ⟨Or.inl rfl,
    C2_amended_internal_error envMkdirFail ["https://youtu.be/b"] "c2w"
      "/home/u" (initialJob 7) (Or.inl rfl)⟩

/-- C5: at every observable state of a job record, the archive location is
populated exactly when the status is `completed`; the record is created with
no archive location, and when the status is `completed` the archive location
holds the job's deterministic zip path (set in the same atomic update). -/
theorem C5_zip_iff_completed (env : RunEnv) (urls : List String)
    (download_id home : String) (j0 : Job)
    (hs : j0.status ≠ "completed") (hz : j0.zip_path = none) :
    ∀ j ∈ jobTrace env urls download_id home j0,
      ((j.zip_path ≠ none ↔ j.status = "completed") ∧
        (j.status = "completed" →
          j.zip_path = some (zipFilePath home download_id))) := by
  intro j hj
  rcases jobTrace_mem env urls download_id home j0 j hj with
    h | ⟨p, hp, h⟩ | ⟨_, _, h⟩
  · subst h
    constructor
    · constructor
      · intro hnz; exact absurd hz hnz
      · intro hc; exact absurd hc hs
    · intro hc; exact absurd hc hs
  · have hpre := eventStates_preserves urls.length (allEvents env urls)
      (0, j0) p hp
    subst h
    rw [hpre.1, hpre.2.1]
    constructor
    · constructor
      · intro hnz; exact absurd hz hnz
      · intro hc; exact absurd hc hs
    · intro hc; exact absurd hc hs
  · subst h
    constructor
    · simp [finalJob]
    · intro _; simp [finalJob]

/-- Environment for the trace-invariant witnesses: one URL, one
`downloading` and one `finished` event, a clean completion. -/
def envTrace : RunEnv :=
  { mkdirOk := true,
    fetch := fun _ => ⟨[.downloading "01 - a.mp4", .finished "01 - a.mp4"],
      none⟩,
    dirListing := [⟨"01 - a.mp4", true⟩],
    zipOk := true }

/-- Witness for C5 on a concrete completing trace. -/
theorem C5_witness :
    (initialJob 0).status ≠ "completed" ∧ (initialJob 0).zip_path = none ∧
    ∀ j ∈ jobTrace envTrace ["https://youtu.be/a"] "w5" "/home/u"
        (initialJob 0),
      ((j.zip_path ≠ none ↔ j.status = "completed") ∧
        (j.status = "completed" →
          j.zip_path = some (zipFilePath "/home/u" "w5"))) :=
  ⟨by decide, rfl,
    C5_zip_iff_completed envTrace ["https://youtu.be/a"] "w5" "/home/u"
      (initialJob 0) (by decide) rfl⟩

/-- C10: while a job's status is not `completed`, every observable snapshot
shows an empty `errors` sequence: per-URL errors live only in runner-local
state and reach the registry solely in the final completion update. -/
theorem C10_no_errors_before_completed (env : RunEnv) (urls : List String)
    (download_id home : String) (j0 : Job) (he : j0.errors = []) :
    ∀ j ∈ jobTrace env urls download_id home j0,
      j.status ≠ "completed" → j.errors = [] := by
  intro j hj hnc
  rcases jobTrace_mem env urls download_id home j0 j hj with
    h | ⟨p, hp, h⟩ | ⟨_, _, h⟩
  · subst h; exact he
  · have hpre := eventStates_preserves urls.length (allEvents env urls)
      (0, j0) p hp
    subst h
    rw [hpre.2.2]
    exact he
  · subst h
    exact absurd (by simp [finalJob]) hnc

/-- Witness for C10 on a concrete trace with a failing URL. -/
theorem C10_witness :
    (initialJob 0).errors = [] ∧
    ∀ j ∈ jobTrace envTrace ["https://youtu.be/a"] "w10" "/home/u"
        (initialJob 0),
      j.status ≠ "completed" → j.errors = [] :=
  ⟨rfl,
    C10_no_errors_before_completed envTrace ["https://youtu.be/a"] "w10"
      "/home/u" (initialJob 0) rfl⟩

/-- Trace shape when `mkdir` fails: only the created record is observable. -/
theorem jobTrace_mkdirFail (env : RunEnv) (urls : List String)
    (download_id home : String) (j0 : Job) (h : env.mkdirOk = false) :
    jobTrace env urls download_id home j0 = [j0] := by
  simp [jobTrace, h]

/-- Trace shape when the zip write fails: the created record and the hook
states, no final update. -/
theorem jobTrace_zipFail (env : RunEnv) (urls : List String)
    (download_id home : String) (j0 : Job)
    (hmk : env.mkdirOk = true) (hz : env.zipOk = false) :
    jobTrace env urls download_id home j0
      = j0 :: (eventStates urls.length (allEvents env urls)
          (0, j0)).map Prod.snd := by
  simp [jobTrace, hmk, hz]

/-- Trace shape of a clean run: created record, hook states, final update. -/
theorem jobTrace_ok (env : RunEnv) (urls : List String)
    (download_id home : String) (j0 : Job)
    (hmk : env.mkdirOk = true) (hz : env.zipOk = true) :
    jobTrace env urls download_id home j0
      = j0 :: ((eventStates urls.length (allEvents env urls)
            (0, j0)).map Prod.snd ++
          [finalJob home download_id
            (urls.foldl (fetchStep urls.length env) ⟨0, [], j0⟩).completed
            urls.length
            (urls.foldl (fetchStep urls.length env) ⟨0, [], j0⟩).errors
            (urls.foldl (fetchStep urls.length env) ⟨0, [], j0⟩).job]) := by
  simp [jobTrace, hmk, hz]

/-- C4: between consecutive observable states of a job, `progress` never
decreases while the job's status is non-terminal (neither `completed` nor
`failed`). -/
theorem C4_progress_monotone (env : RunEnv) (urls : List String)
    (download_id home : String) (j0 : Job) (h0 : j0.progress = 0) :
    List.Chain' (fun a b : Job =>
        (b.status ≠ "completed" ∧ b.status ≠ "failed") →
          a.progress ≤ b.progress)
      (jobTrace env urls download_id home j0) := by
  have hbase : List.Chain' (fun a b : Job => a.progress ≤ b.progress)
      (j0 :: (eventStates urls.length (allEvents env urls)
          (0, j0)).map Prod.snd) := by
    refine eventStates_chain urls.length (allEvents env urls) (0, j0) ?_
    simp [h0]
  have hweak : List.Chain' (fun a b : Job =>
      (b.status ≠ "completed" ∧ b.status ≠ "failed") →
        a.progress ≤ b.progress)
      (j0 :: (eventStates urls.length (allEvents env urls)
          (0, j0)).map Prod.snd) :=
    List.Chain'.imp
      (S := fun a b : Job =>
        (b.status ≠ "completed" ∧ b.status ≠ "failed") →
          a.progress ≤ b.progress)
      (fun a b hab _ => hab) hbase
  by_cases hmk : env.mkdirOk = false
  · rw [jobTrace_mkdirFail env urls download_id home j0 hmk]
    exact List.chain'_singleton j0
  · have hmk' : env.mkdirOk = true := by
      cases hb : env.mkdirOk
      · exact absurd hb hmk
      · rfl
    by_cases hz : env.zipOk = false
    · rw [jobTrace_zipFail env urls download_id home j0 hmk' hz]
      exact hweak
    · have hz' : env.zipOk = true := by
        cases hb : env.zipOk
        · exact absurd hb hz
        · rfl
      rw [jobTrace_ok env urls download_id home j0 hmk' hz']
      refine List.chain'_append.mpr ⟨hweak, List.chain'_singleton _, ?_⟩
      intro x hx y hy hcond
      have hyf : y = finalJob home download_id
          (urls.foldl (fetchStep urls.length env) ⟨0, [], j0⟩).completed
          urls.length
          (urls.foldl (fetchStep urls.length env) ⟨0, [], j0⟩).errors
          (urls.foldl (fetchStep urls.length env) ⟨0, [], j0⟩).job := by
        exact (by simpa using hy : _ = y).symm
      exact absurd (by rw [hyf]; simp [finalJob]) hcond.1

/-- Witness for C4 on a concrete completing trace. -/
theorem C4_witness :
    (initialJob 0).progress = 0 ∧
    List.Chain' (fun a b : Job =>
        (b.status ≠ "completed" ∧ b.status ≠ "failed") →
          a.progress ≤ b.progress)
      (jobTrace envTrace ["https://youtu.be/a"] "w4" "/home/u"
        (initialJob 0)) :=
  ⟨rfl,
    C4_progress_monotone envTrace ["https://youtu.be/a"] "w4" "/home/u"
      (initialJob 0) rfl⟩

/-- C3: a `downloading` event sets `progress` to
`floor(completed / total * 90)` and overwrites the current message, a
`finished` event increments the completed counter by exactly one, every
hook state stays at or below 90% (given that the fetch engine reports each
URL finished at most once overall), and only the final completion update
sets a higher value, namely 100. -/
theorem C3_hook_updates_and_bound (env : RunEnv) (urls : List String)
    (download_id home : String) (j0 : Job)
    (hfin : countFinished (allEvents env urls) ≤ urls.length)
    (hp0 : j0.progress ≤ 90) :
    (∀ (fn : String) (c : Nat) (j : Job),
        hookJob urls.length (.downloading fn) (c, j)
          = (c, { j with progress := c * 90 / urls.length,
                          current := "Downloading: " ++ fn.take 50 })) ∧
    (∀ (fn : String) (c : Nat) (j : Job),
        (hookJob urls.length (.finished fn) (c, j)).1 = c + 1) ∧
    (∀ p ∈ eventStates urls.length (allEvents env urls) (0, j0),
        p.2.progress ≤ 90) ∧
    (env.mkdirOk = true → env.zipOk = true →
      (download_videos env urls download_id home j0).job.progress = 100) := by
  refine ⟨fun fn c j => rfl, fun fn c j => rfl, ?_, ?_⟩
  · exact eventStates_le90 urls.length (allEvents env urls) (0, j0) hp0
      (by simpa using hfin)
  · intro hmk hz
    rw [download_videos_ok env urls download_id home j0 hmk hz]
    simp [finalJob]

/-- Witness for C3 on a concrete run. -/
theorem C3_witness :
    countFinished (allEvents envTrace ["https://youtu.be/a"])
        ≤ (["https://youtu.be/a"] : List String).length ∧
    (initialJob 0).progress ≤ 90 ∧
    ((∀ (fn : String) (c : Nat) (j : Job),
        hookJob (["https://youtu.be/a"] : List String).length
            (.downloading fn) (c, j)
          = (c, { j with
                    progress := c * 90
                      / (["https://youtu.be/a"] : List String).length,
                    current := "Downloading: " ++ fn.take 50 })) ∧
      (∀ (fn : String) (c : Nat) (j : Job),
        (hookJob (["https://youtu.be/a"] : List String).length
            (.finished fn) (c, j)).1 = c + 1) ∧
      (∀ p ∈ eventStates (["https://youtu.be/a"] : List String).length
          (allEvents envTrace ["https://youtu.be/a"]) (0, initialJob 0),
        p.2.progress ≤ 90) ∧
      (envTrace.mkdirOk = true → envTrace.zipOk = true →
        (download_videos envTrace ["https://youtu.be/a"] "w3" "/home/u"
            (initialJob 0)).job.progress = 100)) :=
  ⟨by decide, by decide,
    C3_hook_updates_and_bound envTrace ["https://youtu.be/a"] "w3" "/home/u"
      (initialJob 0) (by decide) (by decide)⟩

/-- C1: with exactly two URLs, one whose fetch raises (reporting no file
finished) and one whose fetch succeeds (reporting exactly one file
finished), the job completes with one recorded error and the summary
message "Completed! 1/2 downloaded". -/
theorem C1_partial_failure_completed (env : RunEnv)
    (u v download_id home m : String) (eu ev : List PEvent) (j0 : Job)
    (hmk : env.mkdirOk = true) (hz : env.zipOk = true)
    (hu : env.fetch u = ⟨eu, some m⟩) (hv : env.fetch v = ⟨ev, none⟩)
    (hcu : countFinished eu = 0) (hcv : countFinished ev = 1) :
    (download_videos env [u, v] download_id home j0).job.status
      = "completed" ∧
    (download_videos env [u, v] download_id home j0).job.errors.length
      = 1 ∧
    (download_videos env [u, v] download_id home j0).job.current
      = "Completed! 1/2 downloaded" := by
  have hrun := run_loop_eq env ([u, v].length) [u, v]
    (⟨0, [], j0⟩ : RunState)
  have hall : allEvents env [u, v] = eu ++ ev := by
    simp [allEvents, hu, hv]
  have hcomp : (([u, v] : List String).foldl
      (fetchStep ([u, v] : List String).length env)
      (⟨0, [], j0⟩ : RunState)).completed = 1 := by
    rw [hrun.1, foldHook_completed, hall, countFinished_append, hcu, hcv]
  have herr : (([u, v] : List String).foldl
      (fetchStep ([u, v] : List String).length env)
      (⟨0, [], j0⟩ : RunState)).errors = [m] := by
    rw [hrun.2.2]
    simp [fetchErrors, hu, hv]
  have hlen : ([u, v] : List String).length = 2 := rfl
  rw [download_videos_ok env [u, v] download_id home j0 hmk hz]
  refine ⟨finalJob_status _ _ _ _ _ _, ?_, ?_⟩
  · rw [finalJob_errors, herr]
    rfl
  · rw [finalJob_current, hcomp, hlen]
    decide

/-- Environment for the C1 witness: the first URL's fetch raises after no
`finished` event, the second URL's fetch succeeds with one `finished`
event. -/
def envC1 : RunEnv :=
  { mkdirOk := true,
    fetch := fun url =>
      if url = "https://www.youtube.com/watch?v=bad" then
        ⟨[], some "ERROR: Video unavailable"⟩
      else
        ⟨[.downloading "01 - ok.mp4", .finished "01 - ok.mp4"], none⟩,
    dirListing := [⟨"01 - ok.mp4", true⟩],
    zipOk := true }

/-- Witness for C1 at a concrete two-URL job. -/
theorem C1_witness :
    envC1.mkdirOk = true ∧ envC1.zipOk = true ∧
    envC1.fetch "https://www.youtube.com/watch?v=bad"
      = ⟨[], some "ERROR: Video unavailable"⟩ ∧
    envC1.fetch "https://youtu.be/ok"
      = ⟨[.downloading "01 - ok.mp4", .finished "01 - ok.mp4"], none⟩ ∧
    countFinished [] = 0 ∧
    countFinished [.downloading "01 - ok.mp4", .finished "01 - ok.mp4"]
      = 1 ∧
    ((download_videos envC1
        ["https://www.youtube.com/watch?v=bad", "https://youtu.be/ok"]
        "w1" "/home/u" (initialJob 0)).job.status = "completed" ∧
      (download_videos envC1
        ["https://www.youtube.com/watch?v=bad", "https://youtu.be/ok"]
        "w1" "/home/u" (initialJob 0)).job.errors.length = 1 ∧
      (download_videos envC1
        ["https://www.youtube.com/watch?v=bad", "https://youtu.be/ok"]
        "w1" "/home/u" (initialJob 0)).job.current
        = "Completed! 1/2 downloaded") :=
  ⟨rfl, rfl, by decide, by decide, rfl, rfl,
    C1_partial_failure_completed envC1
      "https://www.youtube.com/watch?v=bad" "https://youtu.be/ok"
      "w1" "/home/u" "ERROR: Video unavailable" []
      [.downloading "01 - ok.mp4", .finished "01 - ok.mp4"] (initialJob 0)
      rfl rfl (by decide) (by decide) rfl rfl⟩

/-- First creation of the C9 counterexample: the truncated-UUID generator
yields `"aaaa1111"`. -/
def c9r1 : CreateResult :=
  start_download "aaaa1111" 0 ["https://www.youtube.com/watch?v=x"] Reg.empty

/-- Second creation of the C9 counterexample: the generator yields the same
eight characters again. -/
def c9r2 : CreateResult :=
  start_download "aaaa1111" 1 ["https://youtu.be/y"] c9r1.reg

/-- C9 counterexample: the identifier is the truncated output of a random
generator and `start_download` performs no uniqueness check, so two distinct
successful creations can be issued the same identifier, the second
overwriting the first job's record. -/
theorem C9_counterexample :
    c9r1.success = true ∧ c9r2.success = true ∧
    c9r1.download_id = some "aaaa1111" ∧
    c9r2.download_id = some "aaaa1111" ∧
    c9r1.download_id = c9r2.download_id ∧
    c9r1.reg "aaaa1111" = some (initialJob 0) ∧
    c9r2.reg "aaaa1111" = some (initialJob 1) := by
  decide

/-- C9 amended: distinct successful creations receive distinct identifiers,
and an earlier job's record survives a later creation, provided the
generated identifiers differ; the registry itself never enforces this. -/
theorem C9_amended_distinct_ids (id1 id2 : String) (now1 now2 : Nat)
    (urls1 urls2 : List String) (reg : Reg)
    (hne : id1 ≠ id2)
    (h1 : (start_download id1 now1 urls1 reg).success = true)
    (h2 : (start_download id2 now2 urls2
        (start_download id1 now1 urls1 reg).reg).success = true) :
    (start_download id1 now1 urls1 reg).download_id = some id1 ∧
    (start_download id2 now2 urls2
        (start_download id1 now1 urls1 reg).reg).download_id = some id2 ∧
    (start_download id1 now1 urls1 reg).download_id
      ≠ (start_download id2 now2 urls2
          (start_download id1 now1 urls1 reg).reg).download_id ∧
    (start_download id2 now2 urls2
        (start_download id1 now1 urls1 reg).reg).reg id1
      = (start_download id1 now1 urls1 reg).reg id1 := by
  have key : ∀ (nid : String) (now : Nat) (urls : List String) (r : Reg),
      (start_download nid now urls r).success = true →
      (start_download nid now urls r).download_id = some nid ∧
      (start_download nid now urls r).reg = r.set nid (initialJob now) := by
    intro nid now urls r hsucc
    by_cases hv : (urls.filter is_valid_youtube_url).isEmpty = true
    · rw [show start_download nid now urls r
          = ⟨false, some "No valid URLs", none, r⟩ from by
            simp [start_download, hv]] at hsucc
      simp at hsucc
    · simp [start_download, hv]
  obtain ⟨hid1, hreg1⟩ := key id1 now1 urls1 reg h1
  obtain ⟨hid2, hreg2⟩ := key id2 now2 urls2 _ h2
  refine ⟨hid1, hid2, ?_, ?_⟩
  · rw [hid1, hid2]
    intro hcon
    exact hne (Option.some.inj hcon)
  · rw [hreg2]
    simp [Reg.set, hne]

/-- Witness for the amended C9: two creations with distinct generated
identifiers. -/
theorem C9_amended_witness :
    ("bbbb2222" : String) ≠ "cccc3333" ∧
    (start_download "bbbb2222" 0 ["https://youtu.be/p"] Reg.empty).success
      = true ∧
    (start_download "cccc3333" 1 ["https://youtu.be/q"]
        (start_download "bbbb2222" 0 ["https://youtu.be/p"]
          Reg.empty).reg).success = true ∧
    ((start_download "bbbb2222" 0 ["https://youtu.be/p"]
        Reg.empty).download_id = some "bbbb2222" ∧
      (start_download "cccc3333" 1 ["https://youtu.be/q"]
          (start_download "bbbb2222" 0 ["https://youtu.be/p"]
            Reg.empty).reg).download_id = some "cccc3333" ∧
      (start_download "bbbb2222" 0 ["https://youtu.be/p"]
          Reg.empty).download_id
        ≠ (start_download "cccc3333" 1 ["https://youtu.be/q"]
            (start_download "bbbb2222" 0 ["https://youtu.be/p"]
              Reg.empty).reg).download_id ∧
      (start_download "cccc3333" 1 ["https://youtu.be/q"]
          (start_download "bbbb2222" 0 ["https://youtu.be/p"]
            Reg.empty).reg).reg "bbbb2222"
        = (start_download "bbbb2222" 0 ["https://youtu.be/p"]
            Reg.empty).reg "bbbb2222") :=
  ⟨by decide, by decide, by decide,
    C9_amended_distinct_ids "bbbb2222" "cccc3333" 0 1
      ["https://youtu.be/p"] ["https://youtu.be/q"] Reg.empty
      (by decide) (by decide) (by decide)⟩
